import Mathlib

/-!
Shallow embedding of the migration-payload decoder and canonical-URI
reconstructor of `generate-html.js` (google-authenticator-extract).

Bytes are modelled as `Nat` values (< 256 where it matters), JS strings as
Lean `String`, JS `undefined` as `Option.none`, and thrown JS exceptions as
`Except DecodeError`.  The external libraries the script calls into
(`hi-base32`, Node's `Buffer`/`url`/`querystring`, `protobufjs`) are modelled
by executable Lean functions following their documented behaviour on the
inputs this program feeds them; each such model is commented at its
definition site.
-/

namespace GoogleAuthExtract

/-- Error kinds raised (as JS exceptions) somewhere in the pipeline. -/
inductive DecodeError where
  /-- `throw new Error('Invalid Google Authenticator migration URL')` in
  `extractDataFromUrl`. -/
  | invalidUrl
  /-- protobufjs reader ran past the end of the buffer (truncated input). -/
  | truncated
  /-- protobufjs `skipType` met a wire type it cannot skip. -/
  | badWireType
  /-- a JS `TypeError` (e.g. calling `.map` on `undefined`). -/
  | jsTypeError
  /-- `hi-base32` / `Buffer.from` throwing on a non-buffer (`undefined`) input. -/
  | jsInputError
deriving DecidableEq, Repr

deriving instance DecidableEq for Except

/-! ## Base32 (hi-base32, RFC 4648) -/

/-- RFC 4648 base32 alphabet: value `q < 32` to its character
(`A`–`Z` for 0–25, `2`–`7` for 26–31). -/
def b32char (q : Nat) : Char :=
  if q < 26 then Char.ofNat (65 + q) else Char.ofNat (24 + q)

/-- RFC 4648 base32 encoding body: bytes to the list of 5-bit values,
processing 5 input bytes (40 bits) into 8 quintets at a time; a trailing
partial group of 1/2/3/4 bytes yields 2/4/5/7 quintets (the final quintet
zero-padded on the right), exactly as `hi-base32`'s bit shifting does. -/
def b32EncodeBody : List Nat → List Nat
  | [] => []
  | [b1] => [b1 / 8, b1 % 8 * 4]
  | [b1, b2] => [b1 / 8, b1 % 8 * 4 + b2 / 64, b2 / 2 % 32, b2 % 2 * 16]
  | [b1, b2, b3] =>
      [b1 / 8, b1 % 8 * 4 + b2 / 64, b2 / 2 % 32, b2 % 2 * 16 + b3 / 16,
       b3 % 16 * 2]
  | [b1, b2, b3, b4] =>
      [b1 / 8, b1 % 8 * 4 + b2 / 64, b2 / 2 % 32, b2 % 2 * 16 + b3 / 16,
       b3 % 16 * 2 + b4 / 128, b4 / 4 % 32, b4 % 4 * 8]
  | b1 :: b2 :: b3 :: b4 :: b5 :: rest =>
      b1 / 8 :: (b1 % 8 * 4 + b2 / 64) :: (b2 / 2 % 32) ::
      (b2 % 2 * 16 + b3 / 16) :: (b3 % 16 * 2 + b4 / 128) ::
      (b4 / 4 % 32) :: (b4 % 4 * 8 + b5 / 32) :: (b5 % 32) ::
      b32EncodeBody rest

/-- Number of `=` padding characters RFC 4648 appends after `n` data
characters (to reach a multiple of 8). -/
def b32PadLen (n : Nat) : Nat := (8 - n % 8) % 8

/-- `base32.encode(secretBytes)` of `hi-base32`: RFC 4648 base32 with `=`
padding to a multiple of 8 characters. -/
def base32EncodePadded (bs : List Nat) : List Char :=
  let body := (b32EncodeBody bs).map b32char
  body ++ List.replicate (b32PadLen body.length) '='

/-- `secretToBase32` from the source: base32-encode the secret and strip all
`=` characters (`.replace(/=/g, '')`). -/
def secretToBase32 (bs : List Nat) : String :=
  String.mk ((base32EncodePadded bs).filter (fun c => c ≠ '='))

/-- Inverse alphabet used to state the round-trip property: the RFC 4648
value of a base32 character, `none` for a character outside the alphabet. -/
def b32CharValOpt (c : Char) : Option Nat :=
  if 'A' ≤ c ∧ c ≤ 'Z' then some (c.toNat - 65)
  else if '2' ≤ c ∧ c ≤ '7' then some (c.toNat - 24)
  else none

/-- RFC 4648 base32 decoding body: 5-bit values back to bytes; a full group
of 8 quintets yields 5 bytes, trailing groups of 2/4/5/7 quintets yield
1/2/3/4 bytes.  Group sizes 1/3/6 carry no complete byte. -/
def b32DecodeBody : List Nat → List Nat
  | [] => []
  | [q0, q1] => [q0 * 8 + q1 / 4]
  | [q0, q1, q2, q3] => [q0 * 8 + q1 / 4, q1 % 4 * 64 + q2 * 2 + q3 / 16]
  | [q0, q1, q2, q3, q4] =>
      [q0 * 8 + q1 / 4, q1 % 4 * 64 + q2 * 2 + q3 / 16, q3 % 16 * 16 + q4 / 2]
  | [q0, q1, q2, q3, q4, q5, q6] =>
      [q0 * 8 + q1 / 4, q1 % 4 * 64 + q2 * 2 + q3 / 16, q3 % 16 * 16 + q4 / 2,
       q4 % 2 * 128 + q5 * 4 + q6 / 8]
  | q0 :: q1 :: q2 :: q3 :: q4 :: q5 :: q6 :: q7 :: rest =>
      (q0 * 8 + q1 / 4) :: (q1 % 4 * 64 + q2 * 2 + q3 / 16) ::
      (q3 % 16 * 16 + q4 / 2) :: (q4 % 2 * 128 + q5 * 4 + q6 / 8) ::
      (q6 % 8 * 32 + q7) :: b32DecodeBody rest
  | _ => []

/-- Map a list through an `Option`-valued function, failing if any element
fails (used by the spec-side base32 decoder). -/
def traverseOpt (f : α → Option β) : List α → Option (List β)
  | [] => some []
  | a :: l => do
      let b ← f a
      let bs ← traverseOpt f l
      some (b :: bs)

/-- Spec-side RFC 4648 base32 decoder for unpadded input: every character
must be in the alphabet; the quintets are regrouped into bytes. -/
def base32DecodeUnpadded (s : String) : Option (List Nat) :=
  (traverseOpt b32CharValOpt s.data).map b32DecodeBody

/-! ## Base64 (Node `Buffer.from(str, 'base64')`) -/

/-- Value of a base64 character.  Node accepts both the standard alphabet
(`+`, `/`) and the URL-safe one (`-`, `_`). -/
def b64CharVal (c : Char) : Option Nat :=
  if 'A' ≤ c ∧ c ≤ 'Z' then some (c.toNat - 65)
  else if 'a' ≤ c ∧ c ≤ 'z' then some (c.toNat - 71)
  else if '0' ≤ c ∧ c ≤ '9' then some (c.toNat + 4)
  else if c = '+' ∨ c = '-' then some 62
  else if c = '/' ∨ c = '_' then some 63
  else none

/-- Collect the 6-bit values of a base64 string the way Node's lenient
decoder does: `=` ends the data, characters outside the alphabet
(whitespace etc.) are skipped, nothing ever fails. -/
def b64Sextets : List Char → List Nat
  | [] => []
  | c :: r =>
      if c = '=' then []
      else
        match b64CharVal c with
        | some v => v :: b64Sextets r
        | none => b64Sextets r

/-- Regroup 6-bit values into bytes: each full group of 4 sextets yields 3
bytes; trailing groups of 2/3 sextets yield 1/2 bytes; a lone trailing
sextet yields nothing (Node drops it silently). -/
def b64Bytes : List Nat → List Nat
  | s0 :: s1 :: s2 :: s3 :: r =>
      (s0 * 4 + s1 / 16) :: (s1 % 16 * 16 + s2 / 4) :: (s2 % 4 * 64 + s3) ::
      b64Bytes r
  | [s0, s1] => [s0 * 4 + s1 / 16]
  | [s0, s1, s2] => [s0 * 4 + s1 / 16, s1 % 16 * 16 + s2 / 4]
  | _ => []

/-- Node's `Buffer.from(s, 'base64')`: lenient, total base64 decoding. -/
def nodeBase64Decode (s : String) : List Nat :=
  b64Bytes (b64Sextets s.data)

/-- `data.replace(/ /g, '+')` from the source: replace every space with `+`
(undoes a transport having turned `+` into a space). -/
def replaceSpacePlus (s : String) : String :=
  String.mk (s.data.map (fun c => if c = ' ' then '+' else c))

/-- Spec-side predicate (from the spec's words, §4.1/§7): well-formed
*standard* base64 — length a multiple of 4, data characters from the
standard alphabet (`A`–`Z` `a`–`z` `0`–`9` `+` `/`), at most two `=`
padding characters and only at the end. -/
def isWellFormedBase64 (s : String) : Bool :=
  let l := s.data
  let body := l.takeWhile (fun c => c ≠ '=')
  let pad := l.drop body.length
  decide (l.length % 4 = 0) &&
  body.all (fun c =>
    ('A' ≤ c && c ≤ 'Z') || ('a' ≤ c && c ≤ 'z') ||
    ('0' ≤ c && c ≤ '9') || c = '+' || c = '/') &&
  pad.all (fun c => c = '=') && decide (pad.length ≤ 2)

/-! ## URL parsing (Node `url.parse(u, true)`) -/

/-- The part of Node's parsed-URL object that `extractDataFromUrl` reads:
`protocol` (lowercased, with trailing colon; `none` models JS `null`),
`host` (lowercased; `none` models `null`) and the decoded `data` query value
(`none` when the `data` parameter is missing). -/
structure ParsedUrl where
  protocol : Option String
  host : Option String
  data : Option String
deriving DecidableEq, Repr

/-- Split a character list at the first occurrence of `://`
(scheme/rest separator used by the simplified `url.parse` model below). -/
def splitProto : List Char → Option (List Char × List Char)
  | [] => none
  | ':' :: '/' :: '/' :: r => some ([], r)
  | x :: r => (splitProto r).map (fun pr => (x :: pr.1, pr.2))

/-- Split a character list at the first occurrence of `c`. -/
def splitFirst (c : Char) : List Char → List Char × Option (List Char)
  | [] => ([], none)
  | x :: r =>
      if x = c then ([], some r)
      else
        let p := splitFirst c r
        (x :: p.1, p.2)

/-- Split a character list at every occurrence of `c`. -/
def splitAll (c : Char) : List Char → List (List Char)
  | [] => [[]]
  | x :: r =>
      match splitAll c r with
      | [] => [[]]
      | g :: gs => if x = c then [] :: g :: gs else (x :: g) :: gs

/-- Hexadecimal digit value, `none` for a non-hex character. -/
def hexDigitVal (c : Char) : Option Nat :=
  if '0' ≤ c ∧ c ≤ '9' then some (c.toNat - 48)
  else if 'a' ≤ c ∧ c ≤ 'f' then some (c.toNat - 87)
  else if 'A' ≤ c ∧ c ≤ 'F' then some (c.toNat - 55)
  else none

/-- Node `querystring` unescaping of a query value: `+` becomes a space and
`%XX` hex escapes are decoded (byte-level model; multi-byte UTF-8 escape
sequences do not occur in the inputs this development evaluates). -/
def qsUnescape : List Char → List Char
  | [] => []
  | '+' :: r => ' ' :: qsUnescape r
  | '%' :: a :: b :: r =>
      match hexDigitVal a, hexDigitVal b with
      | some ha, some hb => Char.ofNat (ha * 16 + hb) :: qsUnescape r
      | _, _ => '%' :: qsUnescape (a :: b :: r)
  | c :: r => c :: qsUnescape r

/-- Find the `data` value in a `querystring.parse`d query: split on `&`,
split each pair at its first `=` (a pair without `=` has value `''`),
unescape key and value, keep the first pair whose key is `data`
(a repeated parameter, which would give an array in JS, is out of model). -/
def queryDataValue (q : List Char) : Option String :=
  ((splitAll '&' q).filterMap (fun pair =>
    let p := splitFirst '=' pair
    if qsUnescape p.1 = "data".data then
      some (String.mk (qsUnescape (p.2.getD [])))
    else none)).head?

/-- Simplified model of Node's `url.parse(u, true)`, adequate for the
path-less `scheme://host?query` URIs this program handles: the scheme and
host are lowercased, the scheme gets its trailing colon, the host stops at
the first `/`, `?` or `#`, and the query string is parsed for `data`.
A string without `://` parses to all-`null` fields. -/
def urlParse (s : String) : ParsedUrl :=
  match splitProto s.data with
  | none => ⟨none, none, none⟩
  | some (proto, rest) =>
      let hq := splitFirst '?' rest
      let host := (hq.1.takeWhile (fun c => c ≠ '/' ∧ c ≠ '#')).map Char.toLower
      ⟨some (String.mk (proto.map Char.toLower ++ [':'])),
       some (String.mk host),
       hq.2.bind queryDataValue⟩

/-! ## Transport unwrapper (`extractDataFromUrl`) -/

/-- `extractDataFromUrl` from the source, operating on the parsed URL:
reject any protocol other than `otpauth-migration:` or host other than
`offline`; read the `data` query value (missing, or empty and hence falsy,
gives `''`); replace every space with `+`; base64-decode leniently. -/
def extractDataFromUrl (u : ParsedUrl) : Except DecodeError (List Nat) :=
  if u.protocol ≠ some "otpauth-migration:" ∨ u.host ≠ some "offline" then
    .error .invalidUrl
  else
    .ok (nodeBase64Decode (replaceSpacePlus (u.data.getD "")))

/-! ## Payload decoder (protobufjs `Payload.decode` + `Payload.toObject`) -/

/-- Protobuf varint reader (`reader.uint32` / `reader.uint64`): little-endian
base-128; fails on a truncated buffer. -/
def readVarint : List Nat → Except DecodeError (Nat × List Nat)
  | [] => .error .truncated
  | b :: rest =>
      if b < 128 then .ok (b, rest)
      else do
        let (v, r) ← readVarint rest
        .ok (b % 128 + 128 * v, r)

/-- Read `n` raw bytes, failing on a truncated buffer. -/
def readRaw (n : Nat) (bs : List Nat) :
    Except DecodeError (List Nat × List Nat) :=
  if n ≤ bs.length then .ok (bs.take n, bs.drop n) else .error .truncated

/-- `reader.bytes()`: a varint length followed by that many raw bytes. -/
def readDelimited (bs : List Nat) :
    Except DecodeError (List Nat × List Nat) := do
  let (n, r) ← readVarint bs
  readRaw n r

/-- protobufjs `skipType`: skip one unknown field of the given wire type
(varint, 64-bit, length-delimited, 32-bit; group wire types, which this
format never contains, are not modelled and fail). -/
def skipField (wt : Nat) (bs : List Nat) :
    Except DecodeError (List Nat) :=
  match wt with
  | 0 => (readVarint bs).map (·.2)
  | 1 => (readRaw 8 bs).map (·.2)
  | 2 => (readDelimited bs).map (·.2)
  | 5 => (readRaw 4 bs).map (·.2)
  | _ => .error .badWireType

/-- Decoded `Payload.OtpParameters` protobuf message: exactly the fields
that were present on the wire (protobufjs sets only those as own
properties); enum and integer fields hold the raw decoded numbers. -/
structure OtpParamsMsg where
  secret : Option (List Nat) := none
  name : Option (List Nat) := none
  issuer : Option (List Nat) := none
  algorithm : Option Nat := none
  digits : Option Nat := none
  type : Option Nat := none
  counter : Option Nat := none
deriving DecidableEq, Repr

/-- Field-decoding loop for one `OtpParameters` message, as generated by
protobufjs: read a tag, dispatch on the field *number* (1 secret, 2 name,
3 issuer, 4 algorithm, 5 digits, 6 type, 7 counter), skip unknown fields by
wire type.  The fuel argument bounds the iteration count and is always
called with the byte count, so it never runs out (each iteration consumes
at least one byte). -/
def decodeOtpLoop : Nat → List Nat → OtpParamsMsg →
    Except DecodeError OtpParamsMsg
  | _, [], m => .ok m
  | 0, _ :: _, _ => .error .truncated
  | fuel + 1, bs, m => do
      let (tag, r) ← readVarint bs
      match tag / 8 with
      | 1 => do
          let (v, r2) ← readDelimited r
          decodeOtpLoop fuel r2 { m with secret := some v }
      | 2 => do
          let (v, r2) ← readDelimited r
          decodeOtpLoop fuel r2 { m with name := some v }
      | 3 => do
          let (v, r2) ← readDelimited r
          decodeOtpLoop fuel r2 { m with issuer := some v }
      | 4 => do
          let (v, r2) ← readVarint r
          decodeOtpLoop fuel r2 { m with algorithm := some (v % 4294967296) }
      | 5 => do
          let (v, r2) ← readVarint r
          decodeOtpLoop fuel r2 { m with digits := some (v % 4294967296) }
      | 6 => do
          let (v, r2) ← readVarint r
          decodeOtpLoop fuel r2 { m with type := some (v % 4294967296) }
      | 7 => do
          let (v, r2) ← readVarint r
          decodeOtpLoop fuel r2
            { m with counter := some (v % 18446744073709551616) }
      | _ => do
          let r2 ← skipField (tag % 8) r
          decodeOtpLoop fuel r2 m

/-- Decoded top-level `Payload` protobuf message. -/
structure PayloadMsg where
  otpParameters : List OtpParamsMsg := []
  version : Option Nat := none
  batchSize : Option Nat := none
  batchIndex : Option Nat := none
  batchId : Option Nat := none
deriving DecidableEq, Repr

/-- Field-decoding loop for the top-level `Payload` message: field 1 is the
repeated `otp_parameters` sub-message, fields 2–5 are int32 scalars
(stored as their low 32 bits; their sign is never consulted downstream),
unknown fields are skipped by wire type. -/
def decodePayloadLoop : Nat → List Nat → PayloadMsg →
    Except DecodeError PayloadMsg
  | _, [], m => .ok m
  | 0, _ :: _, _ => .error .truncated
  | fuel + 1, bs, m => do
      let (tag, r) ← readVarint bs
      match tag / 8 with
      | 1 => do
          let (v, r2) ← readDelimited r
          let o ← decodeOtpLoop v.length v {}
          decodePayloadLoop fuel r2
            { m with otpParameters := m.otpParameters ++ [o] }
      | 2 => do
          let (v, r2) ← readVarint r
          decodePayloadLoop fuel r2 { m with version := some (v % 4294967296) }
      | 3 => do
          let (v, r2) ← readVarint r
          decodePayloadLoop fuel r2 { m with batchSize := some (v % 4294967296) }
      | 4 => do
          let (v, r2) ← readVarint r
          decodePayloadLoop fuel r2 { m with batchIndex := some (v % 4294967296) }
      | 5 => do
          let (v, r2) ← readVarint r
          decodePayloadLoop fuel r2 { m with batchId := some (v % 4294967296) }
      | _ => do
          let r2 ← skipField (tag % 8) r
          decodePayloadLoop fuel r2 m

/-- UTF-8 decoding of string-field bytes (protobufjs `utf8.read`): standard
1–4-byte sequences; an invalid lead or continuation byte yields U+FFFD for
one byte, like the library's lenient reader (only ASCII is ever exercised
by the theorems below).  Fuel-driven; called with the byte count. -/
def utf8Decode : Nat → List Nat → List Char
  | 0, _ => []
  | _, [] => []
  | fuel + 1, b :: r =>
      if b < 128 then Char.ofNat b :: utf8Decode fuel r
      else if 194 ≤ b ∧ b < 224 then
        match r with
        | b2 :: r2 =>
            if 128 ≤ b2 ∧ b2 < 192 then
              Char.ofNat ((b - 192) * 64 + (b2 - 128)) :: utf8Decode fuel r2
            else Char.ofNat 65533 :: utf8Decode fuel r
        | [] => [Char.ofNat 65533]
      else if 224 ≤ b ∧ b < 240 then
        match r with
        | b2 :: b3 :: r3 =>
            if 128 ≤ b2 ∧ b2 < 192 ∧ 128 ≤ b3 ∧ b3 < 192 then
              Char.ofNat ((b - 224) * 4096 + (b2 - 128) * 64 + (b3 - 128)) ::
              utf8Decode fuel r3
            else Char.ofNat 65533 :: utf8Decode fuel r
        | _ => [Char.ofNat 65533]
      else if 240 ≤ b ∧ b < 245 then
        match r with
        | b2 :: b3 :: b4 :: r4 =>
            if 128 ≤ b2 ∧ b2 < 192 ∧ 128 ≤ b3 ∧ b3 < 192 ∧
               128 ≤ b4 ∧ b4 < 192 then
              Char.ofNat ((b - 240) * 262144 + (b2 - 128) * 4096 +
                (b3 - 128) * 64 + (b4 - 128)) :: utf8Decode fuel r4
            else Char.ofNat 65533 :: utf8Decode fuel r
        | _ => [Char.ofNat 65533]
      else Char.ofNat 65533 :: utf8Decode fuel r

/-- Bytes of a string field to a Lean `String`. -/
def utf8String (bs : List Nat) : String :=
  String.mk (utf8Decode bs.length bs)

/-- Render a 32-bit stored value the way JS renders the int32 field
(negative above `2^31`); used only for unknown enum numbers that
`toObject` leaves as numbers. -/
def int32Str (v : Nat) : String :=
  let w := v % 4294967296
  if w < 2147483648 then toString w else toString (Int.ofNat w - 4294967296)

/-- `Payload.OtpParameters.Algorithm` `valuesById` of protobufjs. -/
def algorithmById (v : Nat) : Option String :=
  if v = 0 then some "ALGORITHM_UNSPECIFIED"
  else if v = 1 then some "ALGORITHM_SHA1"
  else if v = 2 then some "ALGORITHM_SHA256"
  else if v = 3 then some "ALGORITHM_SHA512"
  else if v = 4 then some "ALGORITHM_MD5"
  else none

/-- `Payload.OtpParameters.DigitCount` `valuesById` of protobufjs. -/
def digitCountById (v : Nat) : Option String :=
  if v = 0 then some "DIGIT_COUNT_UNSPECIFIED"
  else if v = 1 then some "DIGIT_COUNT_SIX"
  else if v = 2 then some "DIGIT_COUNT_EIGHT"
  else none

/-- `Payload.OtpParameters.OtpType` `valuesById` of protobufjs. -/
def otpTypeById (v : Nat) : Option String :=
  if v = 0 then some "OTP_TYPE_UNSPECIFIED"
  else if v = 1 then some "OTP_TYPE_HOTP"
  else if v = 2 then some "OTP_TYPE_TOTP"
  else none

/-- One `otpParameters` entry after
`Payload.toObject(message, { longs: String, enums: String, bytes: Buffer })`:
wire-absent fields are *omitted* from the object (modelled as `none`,
i.e. JS `undefined`), enum fields present on the wire become their enum
names (or stay numbers, rendered as strings, when unknown), and the uint64
counter becomes its decimal string. -/
structure OtpParams where
  secret : Option (List Nat)
  name : Option String
  issuer : Option String
  algorithm : Option String
  digits : Option String
  type : Option String
  counter : Option String
deriving DecidableEq, Repr

/-- `toObject` conversion of one decoded `OtpParameters` message. -/
def toObjectOtp (m : OtpParamsMsg) : OtpParams where
  secret := m.secret
  name := m.name.map utf8String
  issuer := m.issuer.map utf8String
  algorithm := m.algorithm.map (fun v => (algorithmById v).getD (int32Str v))
  digits := m.digits.map (fun v => (digitCountById v).getD (int32Str v))
  type := m.type.map (fun v => (otpTypeById v).getD (int32Str v))
  counter := m.counter.map toString

/-- The `Payload` object after `Payload.toObject`: `otpParameters` is
omitted (JS `undefined`) when no record was decoded — the conversion only
keeps a non-empty array. -/
structure PayloadObj where
  otpParameters : Option (List OtpParams)
  version : Option Nat
  batchSize : Option Nat
  batchIndex : Option Nat
  batchId : Option Nat
deriving DecidableEq, Repr

/-- `toObject` conversion of the decoded top-level message. -/
def toObjectPayload (m : PayloadMsg) : PayloadObj where
  otpParameters :=
    if m.otpParameters.isEmpty then none
    else some (m.otpParameters.map toObjectOtp)
  version := m.version
  batchSize := m.batchSize
  batchIndex := m.batchIndex
  batchId := m.batchId

/-- `Payload.decode(data)` followed by `Payload.toObject(...)` from the
source's `decodeUrl`. -/
def decodePayload (bs : List Nat) : Except DecodeError PayloadObj := do
  let m ← decodePayloadLoop bs.length bs {}
  .ok (toObjectPayload m)

/-! ## Field normalizer and URI reconstructor (`createOtpauthUrl`) -/

/-- The `algorithmNames` mapping object of the source; a key outside the
object gives JS `undefined` (`none`). -/
def algorithmNames (k : String) : Option String :=
  if k = "ALGORITHM_UNSPECIFIED" then some "SHA1"
  else if k = "ALGORITHM_SHA1" then some "SHA1"
  else if k = "ALGORITHM_SHA256" then some "SHA256"
  else if k = "ALGORITHM_SHA512" then some "SHA512"
  else if k = "ALGORITHM_MD5" then some "MD5"
  else none

/-- The `digitCounts` mapping object of the source. -/
def digitCounts (k : String) : Option String :=
  if k = "DIGIT_COUNT_UNSPECIFIED" then some "6"
  else if k = "DIGIT_COUNT_SIX" then some "6"
  else if k = "DIGIT_COUNT_EIGHT" then some "8"
  else none

/-- The `otpTypes` mapping object of the source. -/
def otpTypes (k : String) : Option String :=
  if k = "OTP_TYPE_UNSPECIFIED" then some "totp"
  else if k = "OTP_TYPE_HOTP" then some "hotp"
  else if k = "OTP_TYPE_TOTP" then some "totp"
  else none

/-- JS property lookup `table[key]` where the key may itself be
`undefined`: `table[undefined]` is `undefined`. -/
def jsLookup (table : String → Option String) : Option String → Option String
  | none => none
  | some k => table k

/-- JS string coercion inside a template literal: `undefined` prints as
the literal text `undefined`. -/
def jsStr : Option String → String
  | none => "undefined"
  | some s => s

/-- JS truthiness of a string-or-undefined value: `undefined` and the
empty string are falsy, every other string truthy. -/
def jsTruthy : Option String → Bool
  | none => false
  | some s => s ≠ ""

/-- The field normalizer of the spec, as the source implements it inside
`createOtpauthUrl`: apply the three mapping objects to the record's enum
fields (JS lookup semantics, `undefined` for a missing key), leaving every
other field unchanged. -/
def normalizeRecord (p : OtpParams) : OtpParams :=
  { p with
    algorithm := jsLookup algorithmNames p.algorithm
    digits := jsLookup digitCounts p.digits
    type := jsLookup otpTypes p.type }

/-- Characters `encodeURIComponent` leaves unescaped:
`A`–`Z` `a`–`z` `0`–`9` `- _ . ! ~ * ' ( )`. -/
def uriUnescapedChar (c : Char) : Bool :=
  ('A' ≤ c && c ≤ 'Z') || ('a' ≤ c && c ≤ 'z') || ('0' ≤ c && c ≤ '9') ||
  c = '-' || c = '_' || c = '.' || c = '!' || c = '~' || c = '*' ||
  c.toNat = 39 || c = '(' || c = ')'

/-- UTF-8 bytes of one code point (1–4 bytes). -/
def utf8EncodeChar (c : Char) : List Nat :=
  let n := c.toNat
  if n < 128 then [n]
  else if n < 2048 then [192 + n / 64, 128 + n % 64]
  else if n < 65536 then [224 + n / 4096, 128 + n / 64 % 64, 128 + n % 64]
  else [240 + n / 262144, 128 + n / 4096 % 64, 128 + n / 64 % 64,
        128 + n % 64]

/-- Uppercase hexadecimal digit. -/
def hexDigitUpper (n : Nat) : Char :=
  if n < 10 then Char.ofNat (48 + n) else Char.ofNat (55 + n)

/-- `%XX` escape of one byte, uppercase hex. -/
def percentByte (b : Nat) : List Char :=
  ['%', hexDigitUpper (b / 16), hexDigitUpper (b % 16)]

/-- JS `encodeURIComponent`: unescaped characters kept, every other
character replaced by the `%XX` escapes of its UTF-8 bytes. -/
def encodeURIComponent (s : String) : String :=
  String.mk (s.data.flatMap (fun c =>
    if uriUnescapedChar c then [c]
    else (utf8EncodeChar c).flatMap percentByte))

/-- The `queryParams` array built by `createOtpauthUrl`, in push order:
`secret` (always; `hi-base32` throws a `TypeError` when the secret is
`undefined`), `issuer` when truthy, `algorithm` and `digits` (always, via
the mapping objects; a failed lookup stringifies as `undefined`), `counter`
when the type resolved to `hotp` and the counter is truthy, `period=30`
when the type resolved to `totp`. -/
def otpauthQueryParams (p : OtpParams) : Except DecodeError (List String) :=
  match p.secret with
  | none => .error .jsInputError
  | some sec =>
      let otpType := jsLookup otpTypes p.type
      .ok (["secret=" ++ secretToBase32 sec]
        ++ (if jsTruthy p.issuer then
              ["issuer=" ++ encodeURIComponent (jsStr p.issuer)] else [])
        ++ ["algorithm=" ++ jsStr (jsLookup algorithmNames p.algorithm)]
        ++ ["digits=" ++ jsStr (jsLookup digitCounts p.digits)]
        ++ (if otpType = some "hotp" ∧ jsTruthy p.counter then
              ["counter=" ++ jsStr p.counter] else [])
        ++ (if otpType = some "totp" then ["period=30"] else []))

/-- Join query parameters with `&` (`queryParams.join('&')`). -/
def joinAmp : List String → String
  | [] => ""
  | [s] => s
  | s :: r => s ++ "&" ++ joinAmp r

/-- `createOtpauthUrl(params)` from the source:
`otpauth://{type}/{encodeURIComponent(name)}?{joined query params}`;
an undefined type or name stringifies as the literal `undefined`. -/
def createOtpauthUrl (p : OtpParams) : Except DecodeError String := do
  let ps ← otpauthQueryParams p
  .ok ("otpauth://" ++ jsStr (jsLookup otpTypes p.type) ++ "/"
    ++ encodeURIComponent (jsStr p.name) ++ "?" ++ joinAmp ps)

/-- Observer used to state the claims: the name part of one `name=value`
query-parameter string (everything before the first `=`). -/
def paramName (s : String) : String :=
  String.mk (s.data.takeWhile (fun c => c ≠ '='))

/-- Observer: the value part of one `name=value` query-parameter string
(everything after the first `=`). -/
def paramValue (s : String) : String :=
  String.mk ((s.data.dropWhile (fun c => c ≠ '=')).drop 1)

/-- Observer: the value of the first query parameter with the given name. -/
def queryValue (n : String) (ps : List String) : Option String :=
  ((ps.filter (fun s => paramName s = n)).head?).map paramValue

/-! ## Per-URI pipeline (`decodeUrl`) and batch driver (`processAllUrls`) -/

/-- Lowercase hexadecimal digit. -/
def hexDigitLower (n : Nat) : Char :=
  if n < 10 then Char.ofNat (48 + n) else Char.ofNat (87 + n)

/-- `Buffer.from(bytes).toString('hex')`: lowercase hex, two digits per
byte. -/
def bytesToHex (bs : List Nat) : String :=
  String.mk (bs.flatMap (fun b => [hexDigitLower (b / 16 % 16),
                                   hexDigitLower (b % 16)]))

/-- The record object `decodeUrl` builds per account for the rendering
collaborator: `{name, issuer, secret (hex), type, algorithm, digits,
otpauthUrl}`. -/
structure OutputRecord where
  name : Option String
  issuer : Option String
  secret : String
  type : Option String
  algorithm : Option String
  digits : Option String
  otpauthUrl : String
deriving DecidableEq, Repr

/-- Build one output record (the body of the `.map` callback in
`decodeUrl`): `createOtpauthUrl` runs first, then the hex conversion of the
secret (which would equally throw on an `undefined` secret). -/
def mkOutputRecord (p : OtpParams) : Except DecodeError OutputRecord := do
  let uri ← createOtpauthUrl p
  let hex ← match p.secret with
    | some bs => .ok (bytesToHex bs)
    | none => .error .jsInputError
  .ok ⟨p.name, p.issuer, hex, p.type, p.algorithm, p.digits, uri⟩

/-- The throwing body of `decodeUrl`: unwrap the transport, decode the
payload, map every record to an output record.  When no record was decoded
`payload.otpParameters` is `undefined` and `.map` on it throws a
`TypeError`. -/
def decodeUrlE (u : ParsedUrl) : Except DecodeError (List OutputRecord) := do
  let data ← extractDataFromUrl u
  let payload ← decodePayload data
  match payload.otpParameters with
  | none => .error .jsTypeError
  | some rs => rs.mapM mkOutputRecord

/-- `decodeUrl` as its callers see it: the `try`/`catch` converts any error
into an empty record list plus one `console.error` diagnostic (the second
component counts the logged failures: 0 or 1). -/
def decodeUrl (u : ParsedUrl) : List OutputRecord × Nat :=
  match decodeUrlE u with
  | .ok rs => (rs, 0)
  | .error _ => ([], 1)

/-- The record-collecting part of `processAllUrls`: decode every URI,
concatenate the record lists in input order, and count the logged
per-URI failures. -/
def processAllUrls (urls : List ParsedUrl) : List OutputRecord × Nat :=
  (((urls.map decodeUrl).map Prod.fst).flatten,
   ((urls.map decodeUrl).map Prod.snd).sum)

/-! ## Helper lemmas: the base32 round trip -/

theorem b32EncodeBody_lt (bs : List Nat) :
    (∀ b ∈ bs, b < 256) → ∀ q ∈ b32EncodeBody bs, q < 32 := by
  induction bs using b32EncodeBody.induct with
  | case1 => intro _ q hq; simp [b32EncodeBody] at hq
  | case2 b1 =>
      intro h q hq
      have h1 := h b1 (by simp)
      simp [b32EncodeBody] at hq
      rcases hq with hq | hq <;> omega
  | case3 b1 b2 =>
      intro h q hq
      have h1 := h b1 (by simp)
      have h2 := h b2 (by simp)
      simp [b32EncodeBody] at hq
      rcases hq with hq | hq | hq | hq <;> omega
  | case4 b1 b2 b3 =>
      intro h q hq
      have h1 := h b1 (by simp)
      have h2 := h b2 (by simp)
      have h3 := h b3 (by simp)
      simp [b32EncodeBody] at hq
      rcases hq with hq | hq | hq | hq | hq <;> omega
  | case5 b1 b2 b3 b4 =>
      intro h q hq
      have h1 := h b1 (by simp)
      have h2 := h b2 (by simp)
      have h3 := h b3 (by simp)
      have h4 := h b4 (by simp)
      simp [b32EncodeBody] at hq
      rcases hq with hq | hq | hq | hq | hq | hq | hq <;> omega
  | case6 b1 b2 b3 b4 b5 rest ih =>
      intro h q hq
      have h1 := h b1 (by simp)
      have h2 := h b2 (by simp)
      have h3 := h b3 (by simp)
      have h4 := h b4 (by simp)
      have h5 := h b5 (by simp)
      simp [b32EncodeBody] at hq
      rcases hq with hq | hq | hq | hq | hq | hq | hq | hq | hq <;>
        first
        | omega
        | exact ih (fun b hb => h b (by simp [hb])) q hq

theorem b32_decode_encode (bs : List Nat) :
    (∀ b ∈ bs, b < 256) → b32DecodeBody (b32EncodeBody bs) = bs := by
  induction bs using b32EncodeBody.induct with
  | case1 => intro _; rfl
  | case2 b1 =>
      intro h
      have h1 := h b1 (by simp)
      simp [b32EncodeBody, b32DecodeBody]
      omega
  | case3 b1 b2 =>
      intro h
      have h1 := h b1 (by simp)
      have h2 := h b2 (by simp)
      simp [b32EncodeBody, b32DecodeBody]
      omega
  | case4 b1 b2 b3 =>
      intro h
      have h1 := h b1 (by simp)
      have h2 := h b2 (by simp)
      have h3 := h b3 (by simp)
      simp [b32EncodeBody, b32DecodeBody]
      omega
  | case5 b1 b2 b3 b4 =>
      intro h
      have h1 := h b1 (by simp)
      have h2 := h b2 (by simp)
      have h3 := h b3 (by simp)
      have h4 := h b4 (by simp)
      simp [b32EncodeBody, b32DecodeBody]
      omega
  | case6 b1 b2 b3 b4 b5 rest ih =>
      intro h
      have h1 := h b1 (by simp)
      have h2 := h b2 (by simp)
      have h3 := h b3 (by simp)
      have h4 := h b4 (by simp)
      have h5 := h b5 (by simp)
      have hrest := ih (fun b hb => h b (by simp [hb]))
      simp [b32EncodeBody, b32DecodeBody, hrest]
      omega

theorem b32char_valid (q : Nat) (h : q < 32) :
    b32CharValOpt (b32char q) = some q := by
  have key : ∀ x ∈ List.range 32, b32CharValOpt (b32char x) = some x := by
    decide
  exact key q (List.mem_range.mpr h)

theorem b32char_ne_pad (q : Nat) (h : q < 32) : b32char q ≠ '=' := by
  have key : ∀ x ∈ List.range 32, b32char x ≠ '=' := by decide
  exact key q (List.mem_range.mpr h)

theorem traverseOpt_map_b32char (l : List Nat) (h : ∀ q ∈ l, q < 32) :
    traverseOpt b32CharValOpt (l.map b32char) = some l := by
  induction l with
  | nil => rfl
  | cons a t ih =>
      have ha := h a (by simp)
      simp [traverseOpt, b32char_valid a ha,
            ih (fun q hq => h q (by simp [hq]))]

theorem secretToBase32_data (bs : List Nat) (h : ∀ b ∈ bs, b < 256) :
    (secretToBase32 bs).data = (b32EncodeBody bs).map b32char := by
  unfold secretToBase32 base32EncodePadded
  have h1 : ((b32EncodeBody bs).map b32char).filter (fun c => c ≠ '=') =
      (b32EncodeBody bs).map b32char := by
    rw [List.filter_eq_self]
    intro c hc
    simp at hc
    obtain ⟨q, hq, rfl⟩ := hc
    simpa using b32char_ne_pad q (b32EncodeBody_lt bs h q hq)
  have h2 : ∀ n, (List.replicate n '=').filter (fun c : Char => c ≠ '=') = [] := by
    intro n
    induction n with
    | zero => rfl
    | succ k ih => simp [List.replicate_succ, List.filter_cons, ih]
  simp [List.filter_append, h1, h2]
  exact fun a ha => b32char_ne_pad a (b32EncodeBody_lt bs h a ha)

theorem base32_roundtrip_string (sec : List Nat) (hb : ∀ b ∈ sec, b < 256) :
    base32DecodeUnpadded (secretToBase32 sec) = some sec := by
  unfold base32DecodeUnpadded
  rw [secretToBase32_data sec hb,
      traverseOpt_map_b32char _ (b32EncodeBody_lt sec hb)]
  simp [b32_decode_encode sec hb]

/-! ## Helper lemmas: the mapping objects -/

theorem algorithmNames_out (k v : String) (h : algorithmNames k = some v) :
    algorithmNames v = none := by
  unfold algorithmNames at h
  split_ifs at h
  all_goals first
    | exact Option.noConfusion h
    | (injection h with hv; subst hv; decide)

theorem digitCounts_out (k v : String) (h : digitCounts k = some v) :
    digitCounts v = none := by
  unfold digitCounts at h
  split_ifs at h
  all_goals first
    | exact Option.noConfusion h
    | (injection h with hv; subst hv; decide)

theorem otpTypes_out (k v : String) (h : otpTypes k = some v) :
    otpTypes v = none := by
  unfold otpTypes at h
  split_ifs at h
  all_goals first
    | exact Option.noConfusion h
    | (injection h with hv; subst hv; decide)

theorem jsLookup_twice_none (T : String → Option String)
    (hT : ∀ k v, T k = some v → T v = none) (o : Option String) :
    jsLookup T (jsLookup T o) = none := by
  cases o with
  | none => rfl
  | some k =>
      simp only [jsLookup]
      cases hk : T k with
      | none => rfl
      | some v => simpa [jsLookup] using hT k v hk

/-! ## Claim theorems -/

/-- C3, counterexample: a record whose enum fields already hold the
canonical normalized values `SHA1` / `6` / `totp` is *changed* by applying
the field normalizer again — the canonical values are not keys of the
mapping objects, so all three lookups return `undefined`. -/
theorem renormalize_not_noop_cex :
    normalizeRecord ⟨some [72, 101, 108, 108, 111], some "alice", none,
        some "SHA1", some "6", some "totp", none⟩ ≠
      ⟨some [72, 101, 108, 108, 111], some "alice", none,
        some "SHA1", some "6", some "totp", none⟩ := by decide

/-- C3, amended: normalization is *not* idempotent.  The canonical values
produced by the mapping objects are never keys of those objects, so
re-normalizing any once-normalized record sets all three enum fields to
`undefined` (it is a no-op on no record); the tables are therefore applied
exactly once in the pipeline. -/
theorem renormalize_clears_enum_fields (p : OtpParams) :
    normalizeRecord (normalizeRecord p) =
      { normalizeRecord p with
          algorithm := none, digits := none, type := none } := by
  simp [normalizeRecord,
        jsLookup_twice_none algorithmNames algorithmNames_out,
        jsLookup_twice_none digitCounts digitCounts_out,
        jsLookup_twice_none otpTypes otpTypes_out]

/-- C7: any parsed input URI whose protocol is not `otpauth-migration:` or
whose host is not `offline` makes the transport unwrapper throw the
invalid-URL error (the spec's `InvalidTransportError`) and produce no
payload bytes. -/
theorem invalid_transport_rejected (u : ParsedUrl)
    (h : u.protocol ≠ some "otpauth-migration:" ∨ u.host ≠ some "offline") :
    extractDataFromUrl u = .error .invalidUrl := by
  unfold extractDataFromUrl
  rw [if_pos h]

/-- Witness for C7 at a concrete wrong-scheme URL. -/
theorem invalid_transport_rejected_witness :
    extractDataFromUrl ⟨some "http:", some "offline", some "QUJD"⟩ =
      .error .invalidUrl :=
  invalid_transport_rejected _ (Or.inl (by decide))

/-- C9: the unwrapper replaces every space in the `data` value with `+`
before base64-decoding, so a `data` value decodes exactly as the same value
with its spaces replaced by `+` — for any parsed URL around it. -/
theorem space_plus_equivalence (proto host : Option String) (s : String) :
    extractDataFromUrl ⟨proto, host, some s⟩ =
      extractDataFromUrl ⟨proto, host, some (replaceSpacePlus s)⟩ := by
  have key : ∀ l : List Char,
      (l.map (fun c => if c = ' ' then '+' else c)).map
          (fun c => if c = ' ' then '+' else c) =
        l.map (fun c => if c = ' ' then '+' else c) := by
    intro l
    induction l with
    | nil => rfl
    | cons c t ih => by_cases hc : c = ' ' <;> simp [hc, ih]
  have hidem : replaceSpacePlus (replaceSpacePlus s) = replaceSpacePlus s := by
    unfold replaceSpacePlus
    exact congrArg String.mk (key s.data)
  unfold extractDataFromUrl
  split_ifs with hc
  · rfl
  · simp [hidem]

/-- C10: a URI with the right protocol and host but no `data` query
parameter is not rejected by the transport unwrapper: the missing parameter
is read as `''`, the unwrapper returns the empty byte buffer, and the URI
proceeds to payload decoding and ultimately contributes zero records. -/
theorem missing_data_param_ok (proto host : Option String)
    (hp : proto = some "otpauth-migration:") (hh : host = some "offline") :
    extractDataFromUrl ⟨proto, host, none⟩ = .ok [] ∧
    (decodeUrl ⟨proto, host, none⟩).1 = [] := by
  subst hp hh
  exact ⟨by decide, by decide⟩

/-- Witness for C10 at the concrete data-less migration URL. -/
theorem missing_data_param_ok_witness :
    extractDataFromUrl ⟨some "otpauth-migration:", some "offline", none⟩ =
      .ok [] ∧
    (decodeUrl ⟨some "otpauth-migration:", some "offline", none⟩).1 = [] :=
  missing_data_param_ok _ _ rfl rfl

/-- C4, counterexample: `AAAAA` is not well-formed standard base64 (its
length is not a multiple of 4), yet the unwrapper does not fail on it —
Node's lenient decoder returns the three bytes of the complete leading
quantum. -/
theorem malformed_base64_no_error_cex :
    isWellFormedBase64 "AAAAA" = false ∧
    extractDataFromUrl ⟨some "otpauth-migration:", some "offline",
        some "AAAAA"⟩ = .ok [0, 0, 0] := by decide

/-- C4, amended: on the valid transport the unwrapper *never* fails:
whatever the `data` value, it returns the bytes of the lenient base64
decode (spaces first turned into `+`); malformed base64 is silently
decoded, not rejected with `MalformedPayloadError`. -/
theorem unwrap_total_on_valid_transport (proto host d : Option String)
    (hp : proto = some "otpauth-migration:") (hh : host = some "offline") :
    extractDataFromUrl ⟨proto, host, d⟩ =
      .ok (nodeBase64Decode (replaceSpacePlus (d.getD ""))) := by
  subst hp hh
  unfold extractDataFromUrl
  rw [if_neg (by simp)]

/-- Witness for the amended C4 at a concrete well-formed `data` value. -/
theorem unwrap_total_on_valid_transport_witness :
    extractDataFromUrl ⟨some "otpauth-migration:", some "offline",
        some "QUJD"⟩ = .ok [65, 66, 67] := by
  rw [unwrap_total_on_valid_transport _ _ _ rfl rfl]
  decide

/-- C5: evaluating the pipeline at a payload whose record carries only a
secret and a name (algorithm/digits/type tags absent from the wire, i.e.
the proto3 encoding of UNSPECIFIED): the defaults SHA1 / 6 / totp are *not*
applied — protobufjs omits the absent fields from the converted object and
the URI receives the literal text `undefined` for type, algorithm and
digits, with no `period`.  Second conjunct: the defaults *are* applied when
the zero enum values are explicitly present on the wire, confirming the
mapping tables themselves implement the intended defaulting. -/
theorem absent_enum_fields_yield_undefined :
    decodeUrl ⟨some "otpauth-migration:", some "offline",
        some "Cg4KBUhlbGxvEgVhbGljZQ=="⟩ =
      ([⟨some "alice", none, "48656c6c6f", none, none, none,
         "otpauth://undefined/alice?secret=JBSWY3DP&algorithm=undefined&digits=undefined"⟩],
       0) ∧
    decodeUrl ⟨some "otpauth-migration:", some "offline",
        some "ChQKBUhlbGxvEgVhbGljZSAAKAAwAA=="⟩ =
      ([⟨some "alice", none, "48656c6c6f", some "OTP_TYPE_UNSPECIFIED",
         some "ALGORITHM_UNSPECIFIED", some "DIGIT_COUNT_UNSPECIFIED",
         "otpauth://totp/alice?secret=JBSWY3DP&algorithm=SHA1&digits=6&period=30"⟩],
       0) := by decide

/-- C6: the concrete scenario — the migration URI carrying one record with
secret `0x48656c6c6f`, name `alice`, issuer `Example`, SHA256, eight
digits, TOTP decodes to exactly one output record with the claimed
canonical URI and lowercase `secretHex` `48656c6c6f`. -/
theorem concrete_scenario_eval :
    decodeUrl (urlParse
        "otpauth-migration://offline?data=Ch0KBUhlbGxvEgVhbGljZRoHRXhhbXBsZSACKAIwAg==") =
      ([⟨some "alice", some "Example", "48656c6c6f", some "OTP_TYPE_TOTP",
         some "ALGORITHM_SHA256", some "DIGIT_COUNT_EIGHT",
         "otpauth://totp/alice?secret=JBSWY3DP&issuer=Example&algorithm=SHA256&digits=8&period=30"⟩],
       0) := by decide

/-- C8: per-URI failure isolation — a URI on which the per-URI pipeline
throws contributes exactly zero records and one logged failure, and leaves
every other URI's records untouched, wherever it sits in the batch. -/
theorem per_uri_failure_isolation (l1 l2 : List ParsedUrl) (u : ParsedUrl)
    (er : DecodeError) (he : decodeUrlE u = .error er) :
    (processAllUrls (l1 ++ u :: l2)).1 = (processAllUrls (l1 ++ l2)).1 ∧
    (processAllUrls (l1 ++ u :: l2)).2 = (processAllUrls (l1 ++ l2)).2 + 1 := by
  have hu : decodeUrl u = ([], 1) := by unfold decodeUrl; rw [he]
  unfold processAllUrls
  refine ⟨?_, ?_⟩
  · simp [hu]
  · simp [hu]
    omega

/-- Witness for C8: one wrong-scheme URI plus one valid URI carrying two
accounts yield exactly two records in total and exactly one logged
failure. -/
theorem per_uri_failure_isolation_witness :
    (processAllUrls
      [⟨some "http:", some "example.com", some "AAAA"⟩,
       ⟨some "otpauth-migration:", some "offline",
        some "Ch0KBUhlbGxvEgVhbGljZRoHRXhhbXBsZSACKAIwAgoUCgVXb3JsZBIDYm9iIAEoATABOAU="⟩]).1.length = 2 ∧
    (processAllUrls
      [⟨some "http:", some "example.com", some "AAAA"⟩,
       ⟨some "otpauth-migration:", some "offline",
        some "Ch0KBUhlbGxvEgVhbGljZRoHRXhhbXBsZSACKAIwAgoUCgVXb3JsZBIDYm9iIAEoATABOAU="⟩]).2 = 1 := by
  have h := per_uri_failure_isolation []
    [⟨some "otpauth-migration:", some "offline",
      some "Ch0KBUhlbGxvEgVhbGljZRoHRXhhbXBsZSACKAIwAgoUCgVXb3JsZBIDYm9iIAEoATABOAU="⟩]
    ⟨some "http:", some "example.com", some "AAAA"⟩ .invalidUrl (by decide)
  simp only [List.nil_append] at h
  refine ⟨?_, ?_⟩
  · rw [h.1]; decide
  · rw [h.2]; decide

/-! ## Helper lemmas: query-parameter observers -/

theorem paramName_secret (v : String) :
    paramName ("secret=" ++ v) = "secret" := rfl

theorem paramName_issuer (v : String) :
    paramName ("issuer=" ++ v) = "issuer" := rfl

theorem paramName_algorithm (v : String) :
    paramName ("algorithm=" ++ v) = "algorithm" := rfl

theorem paramName_digits (v : String) :
    paramName ("digits=" ++ v) = "digits" := rfl

theorem paramName_counter (v : String) :
    paramName ("counter=" ++ v) = "counter" := rfl

theorem paramValue_secret (v : String) :
    paramValue ("secret=" ++ v) = v := rfl

theorem otpTypes_values (k v : String) (h : otpTypes k = some v) :
    v = "totp" ∨ v = "hotp" := by
  unfold otpTypes at h
  split_ifs at h
  all_goals first
    | exact Option.noConfusion h
    | (injection h with hv; subst hv;
       first | exact Or.inl rfl | exact Or.inr rfl)

/-- C2: for every normalized record (secret present, all three enum
lookups resolved), the reconstructed query parameters appear in exactly the
order secret, issuer, algorithm, digits, counter, period; secret, algorithm
and digits are always present, issuer exactly when truthy (non-empty),
counter exactly when the resolved type is `hotp` and the counter is truthy,
and period — with the fixed literal value `30` — exactly when the resolved
type is `totp`. -/
theorem query_param_order (p : OtpParams) (sec : List Nat) (a d t : String)
    (hsec : p.secret = some sec)
    (ha : jsLookup algorithmNames p.algorithm = some a)
    (hd : jsLookup digitCounts p.digits = some d)
    (ht : jsLookup otpTypes p.type = some t)
    (ps : List String) (hps : otpauthQueryParams p = .ok ps) :
    ps.map paramName =
      ["secret"] ++ (if jsTruthy p.issuer then ["issuer"] else [])
        ++ ["algorithm", "digits"]
        ++ (if t = "hotp" ∧ jsTruthy p.counter then ["counter"] else [])
        ++ (if t = "totp" then ["period"] else [])
    ∧ ("period=30" ∈ ps ↔ t = "totp") := by
  have htv : t = "totp" ∨ t = "hotp" := by
    cases hk : p.type with
    | none => rw [hk] at ht; exact Option.noConfusion ht
    | some k =>
        rw [hk] at ht
        exact otpTypes_values k t ht
  unfold otpauthQueryParams at hps
  simp only [hsec] at hps
  rw [ht, ha, hd] at hps
  injection hps with h
  subst h
  rcases htv with rfl | rfl
  · constructor
    · by_cases hI : jsTruthy p.issuer = true <;>
        simp [hI, paramName_secret, paramName_issuer, paramName_algorithm,
              paramName_digits, paramName_counter, paramName]
    · simp
  · have hnames :
        ((["secret=" ++ secretToBase32 sec]
          ++ (if jsTruthy p.issuer then
                ["issuer=" ++ encodeURIComponent (jsStr p.issuer)] else [])
          ++ ["algorithm=" ++ jsStr (some a)]
          ++ ["digits=" ++ jsStr (some d)]
          ++ (if some "hotp" = some "hotp" ∧ jsTruthy p.counter then
                ["counter=" ++ jsStr p.counter] else [])
          ++ (if some "hotp" = some "totp" then ["period=30"] else [])).map
            paramName) =
        ["secret"] ++ (if jsTruthy p.issuer then ["issuer"] else [])
          ++ ["algorithm", "digits"]
          ++ (if "hotp" = "hotp" ∧ jsTruthy p.counter then ["counter"] else [])
          ++ (if "hotp" = "totp" then ["period"] else []) := by
      by_cases hI : jsTruthy p.issuer = true <;>
        by_cases hC : jsTruthy p.counter = true <;>
        simp [hI, hC, paramName_secret, paramName_issuer,
              paramName_algorithm, paramName_digits, paramName_counter,
              paramName]
    refine ⟨hnames, ?_⟩
    constructor
    · intro hm
      exfalso
      have h2 := List.mem_map_of_mem paramName hm
      rw [hnames] at h2
      have h3 : paramName "period=30" = "period" := rfl
      rw [h3] at h2
      revert h2
      by_cases hI : jsTruthy p.issuer = true <;>
        by_cases hC : jsTruthy p.counter = true <;>
        simp [hI, hC]
    · intro hm
      exact absurd hm (by decide)

/-- C1: for every payload byte sequence that decodes to a record whose
secret bytes are known, the reconstructed URI's `secret` query parameter is
exactly the RFC 4648 base32 encoding of those bytes with all `=` padding
stripped, and base32-decoding that parameter value recovers the original
secret bytes exactly. -/
theorem secret_base32_roundtrip (bs : List Nat) (payload : PayloadObj)
    (rs : List OtpParams) (r : OtpParams) (sec : List Nat)
    (ps : List String)
    (_hdec : decodePayload bs = .ok payload)
    (_hrs : payload.otpParameters = some rs) (_hr : r ∈ rs)
    (hsec : r.secret = some sec) (hb : ∀ b ∈ sec, b < 256)
    (hps : otpauthQueryParams r = .ok ps) :
    queryValue "secret" ps = some (secretToBase32 sec) ∧
    base32DecodeUnpadded (secretToBase32 sec) = some sec := by
  unfold otpauthQueryParams at hps
  simp only [hsec] at hps
  injection hps with h
  subst h
  constructor
  · simp [queryValue, List.filter_cons, paramName_secret,
          paramValue_secret]
  · exact base32_roundtrip_string sec hb

/-- Witness for C1 at the concrete one-record payload with secret
`48 65 6c 6c 6f`. -/
theorem secret_base32_roundtrip_witness :
    queryValue "secret"
        ["secret=JBSWY3DP", "issuer=Example", "algorithm=SHA256",
         "digits=8", "period=30"] =
      some (secretToBase32 [72, 101, 108, 108, 111]) ∧
    base32DecodeUnpadded (secretToBase32 [72, 101, 108, 108, 111]) =
      some [72, 101, 108, 108, 111] :=
  secret_base32_roundtrip
    [10, 29, 10, 5, 72, 101, 108, 108, 111, 18, 5, 97, 108, 105, 99, 101,
     26, 7, 69, 120, 97, 109, 112, 108, 101, 32, 2, 40, 2, 48, 2]
    ⟨some [⟨some [72, 101, 108, 108, 111], some "alice", some "Example",
           some "ALGORITHM_SHA256", some "DIGIT_COUNT_EIGHT",
           some "OTP_TYPE_TOTP", none⟩], none, none, none, none⟩
    [⟨some [72, 101, 108, 108, 111], some "alice", some "Example",
      some "ALGORITHM_SHA256", some "DIGIT_COUNT_EIGHT",
      some "OTP_TYPE_TOTP", none⟩]
    ⟨some [72, 101, 108, 108, 111], some "alice", some "Example",
     some "ALGORITHM_SHA256", some "DIGIT_COUNT_EIGHT",
     some "OTP_TYPE_TOTP", none⟩
    [72, 101, 108, 108, 111]
    ["secret=JBSWY3DP", "issuer=Example", "algorithm=SHA256",
     "digits=8", "period=30"]
    (by decide) (by decide) (by decide) (by decide) (by decide) (by decide)

/-- Witness for C2 at a concrete normalized HOTP record with a truthy
counter. -/
theorem query_param_order_witness :
    (["secret=K5XXE3DE", "algorithm=SHA1", "digits=6", "counter=5"].map
        paramName =
      ["secret"] ++ (if jsTruthy none then ["issuer"] else [])
        ++ ["algorithm", "digits"]
        ++ (if "hotp" = "hotp" ∧ jsTruthy (some "5") then ["counter"]
            else [])
        ++ (if "hotp" = "totp" then ["period"] else []))
    ∧ ("period=30" ∈
        ["secret=K5XXE3DE", "algorithm=SHA1", "digits=6", "counter=5"] ↔
        "hotp" = "totp") :=
  query_param_order
    ⟨some [87, 111, 114, 108, 100], some "bob", none,
     some "ALGORITHM_SHA1", some "DIGIT_COUNT_SIX", some "OTP_TYPE_HOTP",
     some "5"⟩
    [87, 111, 114, 108, 100] "SHA1" "6" "hotp"
    (by decide) (by decide) (by decide) (by decide)
    ["secret=K5XXE3DE", "algorithm=SHA1", "digits=6", "counter=5"]
    (by decide)

end GoogleAuthExtract
